import Mathlib

set_option maxRecDepth 8192

/-!
# Verification of the acarshub ingestion-normalization-persistence pipeline

A shallow embedding of the Rust sources of sdr-enthusiasts/docker-acarshub:
the protocol listeners (`acarshub-message-processing`), the canonicalizer and
persistence consumer (`acarshub-database/src/db_listener.rs`), the startup
logic (`acarshub/src/main.rs`, `acarshub-database/src/lib.rs`) and the data
model (`acarshub-database/src/models.rs`).

Machine floating-point values (`f64`) that the code only truncates or
compares are modelled as rationals (every finite double is a rational, and
truncation/comparison on doubles is exact); the external `f64` `Display`
formatting (used verbatim for the `freq` string and float signal levels) is
abstracted as a function parameter, since it lives outside this repository.
-/

namespace AcarsHub

/-- Protocol tags (`acarshub-message-processing/src/lib.rs`, `enum Protocols`). -/
inductive Protocols
  | acars
  | vdlm
  | hfdl
  | imsl
  | irdm
deriving DecidableEq, Repr

/-- `Protocols::to_tcp_udp_port`: the fixed UDP port for each protocol. -/
def Protocols.toTcpUdpPort : Protocols → Nat
  | .acars => 5550
  | .vdlm => 5555
  | .hfdl => 5556
  | .imsl => 5557
  | .irdm => 5558

/-- `impl fmt::Display for Protocols`. -/
def Protocols.display : Protocols → String
  | .acars => "ACARS"
  | .vdlm => "VDL-M2"
  | .hfdl => "HFDL"
  | .imsl => "Inmarsat L-Band"
  | .irdm => "Iridium"

/-- `acars_vdlm2_parser::acars::AckType`: an ack arrives either as a native
string or as a boolean, depending on the protocol. -/
inductive AckType
  | str (s : String)
  | bool (b : Bool)
deriving DecidableEq, Repr

/-- `acars_vdlm2_parser::acars::LevelType`: a signal level arrives either as a
32-bit integer or as a floating value (modelled as a rational). -/
inductive LevelType
  | i32 (n : Int)
  | float64 (q : ℚ)
deriving DecidableEq

/-- The fields of `acars_vdlm2_parser::acars::AcarsMessage` that
`IntoMessage::acars_message` reads.  Optionality mirrors the crate types as
used by the source (`unwrap_or_default`, `map_or_else` on these fields). -/
structure AcarsMessage where
  timestamp : Option ℚ
  station_id : Option String
  ack : Option AckType
  toaddr : Option Nat
  text : Option String
  tail : Option String
  flight : Option String
  icao : Option Nat
  freq : ℚ
  mode : Option String
  label : Option String
  block_id : Option String
  msgno : Option String
  is_onground : Option Bool
  is_response : Option Bool
  error : Option Nat
  level : Option LevelType

/-- `models.rs::NewMessage`: the canonical record inserted into the `messages`
table.  Every content field is a (non-null) `String`; `msg_time` is the only
integer column. -/
structure NewMessage where
  message_type : String
  msg_time : Int
  station_id : String
  toaddr : String
  fromaddr : String
  depa : String
  dsta : String
  eta : String
  gtout : String
  gtin : String
  wloff : String
  wlin : String
  lat : String
  lon : String
  alt : String
  msg_text : String
  tail : String
  flight : String
  icao : String
  freq : String
  ack : String
  mode : String
  label : String
  block_id : String
  msgno : String
  is_response : String
  is_onground : String
  error : String
  libacars : String
  level : String
deriving DecidableEq

/-- Lower bound of the Rust `i32` range. -/
def i32Min : Int := -(2 ^ 31)

/-- Upper bound of the Rust `i32` range. -/
def i32Max : Int := 2 ^ 31 - 1

/-- Truncation of a rational toward zero (the rounding used by `as`-style
float-to-int narrowing). -/
def ratTrunc (q : ℚ) : Int := if q < 0 then -(Int.floor (-q)) else Int.floor q

/-- `value.approx_as::<i32>().unwrap_or_default()` from the `conv` crate:
truncate toward zero; an approximation whose truncation falls outside the
`i32` range fails, and `unwrap_or_default` turns that failure into `0`. -/
def approxAsI32OrDefault (q : ℚ) : Int :=
  if i32Min ≤ ratTrunc q ∧ ratTrunc q ≤ i32Max then ratTrunc q else 0

/-- `IntoMessage::acars_message` (`acarshub-database/src/db_listener.rs`,
lines 86-129): the ACARS arm of canonicalization.  `fmtF64` abstracts the
external Rust `f64` `Display` implementation (used for `freq` and for
float-typed signal levels); everything else is transcribed field by field. -/
def acars_message (fmtF64 : ℚ → String) (msg : AcarsMessage) : NewMessage :=
  { message_type := "ACARS"
    msg_time := approxAsI32OrDefault (msg.timestamp.getD 0)
    station_id := msg.station_id.getD ""
    ack :=
      match msg.ack with
      | none => ""
      | some (.str a) => a
      | some (.bool b) => toString b
    toaddr := toString (msg.toaddr.getD 0)
    fromaddr := ""
    depa := ""
    dsta := ""
    eta := ""
    gtout := ""
    gtin := ""
    wloff := ""
    wlin := ""
    lat := ""
    lon := ""
    alt := ""
    msg_text := msg.text.getD ""
    tail := msg.tail.getD ""
    flight := msg.flight.getD ""
    icao := toString (msg.icao.getD 0)
    freq := fmtF64 msg.freq
    mode := msg.mode.getD ""
    label := msg.label.getD ""
    block_id := msg.block_id.getD ""
    msgno := msg.msgno.getD ""
    is_onground := toString (msg.is_onground.getD false)
    is_response := toString (msg.is_response.getD false)
    error := toString (msg.error.getD 0)
    libacars := ""
    level :=
      match msg.level with
      | none => ""
      | some (.i32 n) => toString n
      | some (.float64 q) => fmtF64 q }

/-- Payload of the VDL-M2 variant; the source never inspects its fields. -/
structure Vdlm2Payload

/-- Payload of the HFDL variant; the source never inspects its fields. -/
structure HfdlPayload

/-- Payload of the Iridium variant; the source never inspects its fields. -/
structure IrdmPayload

/-- Payload of the Inmarsat L-Band variant; the source never inspects its fields. -/
structure ImslPayload

/-- `acars_vdlm2_parser::AcarsVdlm2Message`: the protocol-tagged union carried
on the ingestion channel. -/
inductive AcarsVdlm2Message
  | acarsMessage (m : AcarsMessage)
  | vdlm2Message (m : Vdlm2Payload)
  | hfdlMessage (m : HfdlPayload)
  | irdmMessage (m : IrdmPayload)
  | imslMessage (m : ImslPayload)

/-- `IntoMessage::to_message` (`acarshub-database/src/db_listener.rs`, lines
63-84).  The `warn!` side effects of the unimplemented arms are made explicit
as the second component of the result. -/
def to_message (fmtF64 : ℚ → String) : AcarsVdlm2Message → Option NewMessage × List String
  | .acarsMessage m => (some (acars_message fmtF64 m), [])
  | .vdlm2Message _ => (none, ["Vdlm2Message not yet implemented"])
  | .hfdlMessage _ => (none, ["HfdlMessage not yet implemented"])
  | .irdmMessage _ => (none, ["IrdmMessage not yet implemented"])
  | .imslMessage _ => (none, ["ImslMessage not yet implemented"])

/-- A concrete ACARS message used to instantiate theorems at sample inputs. -/
def sampleAcars : AcarsMessage :=
  { timestamp := some 5
    station_id := some "TEST-STATION"
    ack := none
    toaddr := none
    text := some "HELLO"
    tail := none
    flight := some "AA123"
    icao := none
    freq := 131
    mode := some "2"
    label := some "H1"
    block_id := none
    msgno := none
    is_onground := none
    is_response := none
    error := some 0
    level := none }

/-- C2: canonicalization is a total function returning either a complete
record — all thirty fields defined, every content field a `String` (non-null
by type), with the empty string in every canonical field the ACARS protocol
cannot express — or `none`; no arm panics or returns an error. -/
theorem canonicalization_total_and_complete (fmtF64 : ℚ → String)
    (m : AcarsVdlm2Message) :
    (to_message fmtF64 m).1 = none ∨
      ∃ r, (to_message fmtF64 m).1 = some r ∧
        r.fromaddr = "" ∧ r.depa = "" ∧ r.dsta = "" ∧ r.eta = "" ∧
        r.gtout = "" ∧ r.gtin = "" ∧ r.wloff = "" ∧ r.wlin = "" ∧
        r.lat = "" ∧ r.lon = "" ∧ r.alt = "" ∧ r.libacars = "" := by
  cases m with
  | acarsMessage msg =>
      exact Or.inr ⟨acars_message fmtF64 msg, rfl, rfl, rfl, rfl, rfl, rfl,
        rfl, rfl, rfl, rfl, rfl, rfl, rfl⟩
  | vdlm2Message _ => exact Or.inl rfl
  | hfdlMessage _ => exact Or.inl rfl
  | irdmMessage _ => exact Or.inl rfl
  | imslMessage _ => exact Or.inl rfl

/-- C4: the canonical `ack` field is the deterministic textual normalization
of the source ack: an absent ack yields the empty string, a native string ack
passes through unchanged, and a boolean ack maps to exactly `"true"` or
`"false"`. -/
theorem ack_normalization (fmtF64 : ℚ → String) (msg : AcarsMessage) :
    (msg.ack = none → (acars_message fmtF64 msg).ack = "") ∧
    (∀ s, msg.ack = some (.str s) → (acars_message fmtF64 msg).ack = s) ∧
    (∀ b, msg.ack = some (.bool b) →
      (acars_message fmtF64 msg).ack = if b then "true" else "false") := by
  refine ⟨fun h => ?_, fun s h => ?_, fun b h => ?_⟩
  · simp [acars_message, h]
  · simp [acars_message, h]
  · cases b <;> simp [acars_message, h, toString]

/-- Witness for C4 at concrete inputs: a boolean `true` ack canonicalizes to
the literal string "true". -/
theorem ack_normalization_witness :
    (acars_message (fun _ => "") { sampleAcars with ack := some (.bool true) }).ack
      = "true" := by
  have h := (ack_normalization (fun _ => "")
    { sampleAcars with ack := some (.bool true) }).2.2 true rfl
  simpa using h

/-- C5: for a message carrying a floating-point epoch timestamp `t`, the
canonical `msg_time` equals `t` narrowed to a signed 32-bit integer second
count: it always lies in the `i32` range, and whenever the truncation of `t`
toward zero fits in `i32` it equals exactly that truncated second count. -/
theorem msg_time_narrowing (fmtF64 : ℚ → String) (msg : AcarsMessage) (t : ℚ)
    (h : msg.timestamp = some t) :
    (acars_message fmtF64 msg).msg_time = approxAsI32OrDefault t ∧
    i32Min ≤ (acars_message fmtF64 msg).msg_time ∧
    (acars_message fmtF64 msg).msg_time ≤ i32Max ∧
    (i32Min ≤ ratTrunc t → ratTrunc t ≤ i32Max →
      (acars_message fmtF64 msg).msg_time = ratTrunc t) := by
  have hmt : (acars_message fmtF64 msg).msg_time = approxAsI32OrDefault t := by
    simp [acars_message, h]
  refine ⟨hmt, ?_, ?_, fun h1 h2 => ?_⟩
  · rw [hmt]
    unfold approxAsI32OrDefault
    split_ifs with hc
    · exact hc.1
    · norm_num [i32Min]
  · rw [hmt]
    unfold approxAsI32OrDefault
    split_ifs with hc
    · exact hc.2
    · norm_num [i32Max]
  · rw [hmt]
    unfold approxAsI32OrDefault
    rw [if_pos ⟨h1, h2⟩]

/-- Witness for C5 at a concrete input: the timestamp 7.5 narrows to the
second count 7. -/
theorem msg_time_narrowing_witness :
    (acars_message (fun _ => "")
      { sampleAcars with timestamp := some (15 / 2 : ℚ) }).msg_time = 7 := by
  have h := (msg_time_narrowing (fun _ => "")
      { sampleAcars with timestamp := some (15 / 2 : ℚ) } (15 / 2 : ℚ) rfl).2.2.2
  have htr : ratTrunc (15 / 2 : ℚ) = 7 := by norm_num [ratTrunc]
  rw [h (by rw [htr]; norm_num [i32Min]) (by rw [htr]; norm_num [i32Max]), htr]

/-! ## Startup (`acarshub/src/main.rs`, `acarshub-database/src/lib.rs`) -/

/-- Startup outcome of `main`: either the process exited with a status code,
or startup completed and the pipeline is running. -/
inductive StartupOutcome
  | exitWith (code : Nat)
  | running
deriving DecidableEq

/-- The startup decision sequence of `main` (`acarshub/src/main.rs`, lines
68-93): a database connection/migration failure exits with status 69;
otherwise an empty enabled-protocol list exits with status 420; otherwise
startup proceeds to the listeners and the web server. -/
def mainStartup (dbOk : Bool) (protocols : List Protocols) : StartupOutcome :=
  if !dbOk then .exitWith 69
  else if protocols.isEmpty then .exitWith 420
  else .running

/-- C8: a failed database connection or migration exits the process with the
non-zero status 69; zero enabled protocols exits with the non-zero status
420; the two statuses are distinct. -/
theorem startup_exit_statuses (ps : List Protocols) :
    mainStartup false ps = .exitWith 69 ∧
    mainStartup true [] = .exitWith 420 ∧
    (69 : Nat) ≠ 0 ∧ (420 : Nat) ≠ 0 ∧ (69 : Nat) ≠ 420 := by
  refine ⟨rfl, rfl, by decide, by decide, by decide⟩

/-- The fixed legacy database path checked at startup. -/
def legacyDbPath : String := "/run/acarshub/messages.db"

/-- The fixed default database path used when `DATABASE_URL` is unset. -/
def defaultDbPath : String := "/opt/acarshub/messages.sqlite"

/-- The operator warning emitted when the legacy database file is found. -/
def legacyDbWarning : String :=
  "Using old database at /run/acarshub/messages.db. Please migrate your database."

/-- The path-selection logic of `AcarsHubDatabase::new`
(`acarshub-database/src/lib.rs`, lines 52-62): start from the `DATABASE_URL`
environment variable, defaulting to `/opt/acarshub/messages.sqlite` when it
is unset; if a file exists at the fixed legacy path, override the choice with
the legacy path and warn the operator.  Returns the chosen path together with
the warnings emitted. -/
def databaseUrl (legacyExists : Bool) (envDatabaseUrl : Option String) :
    String × List String :=
  let url := envDatabaseUrl.getD defaultDbPath
  if legacyExists then (legacyDbPath, [legacyDbWarning]) else (url, [])

/-- C9: when the legacy file exists the database opens the legacy path and a
migration warning is emitted; otherwise the environment-configured path is
used, falling back to the fixed default path when the variable is unset. -/
theorem database_path_selection (env : Option String) (s : String) :
    databaseUrl true env = (legacyDbPath, [legacyDbWarning]) ∧
    databaseUrl false (some s) = (s, []) ∧
    databaseUrl false none = (defaultDbPath, []) :=
  ⟨rfl, rfl, rfl⟩

/-! ## Persistence engine state

The body of `AcarsHubDatabase::insert_message` is not among the sources under
verification (only its caller in `db_listener.rs` is), so the per-message unit
of work is modelled from the specification (§3, §4.3, §4.4). -/

/-- The running-totals row of the `count` table (spec §3, schema `count`). -/
structure CountTotals where
  total : Nat
  errors : Nat
  good : Nat
deriving DecidableEq

/-- The eight columns covered by the full-text index (spec §4.4, schema
`messages_fts`). -/
structure FtsEntry where
  depa : String
  dsta : String
  msg_text : String
  tail : String
  flight : String
  icao : String
  freq : String
  label : String
deriving DecidableEq

/-- The full-text index entry derived from a canonical row. -/
def ftsEntryOf (m : NewMessage) : FtsEntry :=
  { depa := m.depa, dsta := m.dsta, msg_text := m.msg_text, tail := m.tail
    flight := m.flight, icao := m.icao, freq := m.freq, label := m.label }

/-- An alert-archive row (schema `messages_saved`): the full record, the
matched term, and the match classification. -/
structure SavedMessage where
  message : NewMessage
  term : String
  type_of_match : String
deriving DecidableEq

/-- The persisted state mutated by the persistence engine: the canonical
table with its full-text shadow, the running totals, the two histograms and
the alert tables (spec §3, §4.4). -/
structure DbState where
  messages : List (Nat × NewMessage)
  fts : List (Nat × FtsEntry)
  count : CountTotals
  freqs : List ((String × String) × Nat)
  levels : List (String × Nat)
  alertTerms : List String
  alertStats : List (String × Nat)
  ignoreTerms : List String
  saved : List SavedMessage
deriving DecidableEq

/-- Upsert into a histogram keyed by `k`: increment an existing occurrence
count, or insert the key with count 1. -/
def bumpCount {α : Type} [DecidableEq α] : List (α × Nat) → α → List (α × Nat)
  | [], k => [(k, 1)]
  | (k0, n) :: rest, k =>
      if k0 = k then (k0, n + 1) :: rest else (k0, n) :: bumpCount rest k

/-- Whether `needle` occurs as a prefix of `hay`. -/
def charsStartWith : List Char → List Char → Bool
  | [], _ => true
  | _ :: _, [] => false
  | a :: as, b :: bs => a = b && charsStartWith as bs

/-- Whether `needle` occurs as a contiguous subsequence of `hay`. -/
def charsContain (needle : List Char) : List Char → Bool
  | [] => charsStartWith needle []
  | c :: rest => charsStartWith needle (c :: rest) || charsContain needle rest

/-- Whether the alert `term` occurs in the message `text`. -/
def containsTerm (text term : String) : Bool := charsContain term.data text.data

/-- Modelled from the spec: step 2 of the unit of work (§4.3) — insert the
canonical row into the primary table; the storage engine's indexing mechanism
updates the full-text index as an inherent consequence of the insert. -/
def applyInsertRow (m : NewMessage) (db : DbState) : DbState :=
  { db with
    messages := db.messages ++ [(db.messages.length + 1, m)]
    fts := db.fts ++ [(db.messages.length + 1, ftsEntryOf m)] }

/-- Whether the canonical record's error field records a message error
(spec §3: the "good" vs. "error" running counts). -/
def isErrorMessage (m : NewMessage) : Bool := m.error ≠ "" && m.error ≠ "0"

/-- Modelled from the spec: the running-totals part of step 3 of the unit of
work (§4.3) — every accepted canonical message bumps the total exactly once,
counted as an error or as good according to its error field. -/
def applyTotals (m : NewMessage) (db : DbState) : DbState :=
  { db with
    count :=
      { total := db.count.total + 1
        errors := db.count.errors + (if isErrorMessage m then 1 else 0)
        good := db.count.good + (if isErrorMessage m then 0 else 1) } }

/-- The non-ignored alert terms whose text occurs in the message (spec §4.3:
scan message text against the alert-term set, excluding ignored terms). -/
def alertHits (db : DbState) (m : NewMessage) : List String :=
  db.alertTerms.filter fun t =>
    !(db.ignoreTerms.contains t) && containsTerm m.msg_text t

/-- Modelled from the spec: the derived part of step 3 of the unit of work
(§4.3) — upsert the frequency and signal-level histograms keyed by their
respective values, and for each matching non-ignored alert term append one
archive row and bump that term's hit counter.  The match classification
string of the archive row is not fixed by the spec; the text-scan arm is
recorded as "text". -/
def applyDerived (m : NewMessage) (db : DbState) : DbState :=
  let hits := alertHits db m
  { db with
    freqs := bumpCount db.freqs (m.freq, m.message_type)
    levels := bumpCount db.levels m.level
    alertStats := hits.foldl bumpCount db.alertStats
    saved := db.saved ++ hits.map fun t =>
      { message := m, term := t, type_of_match := "text" } }

/-- Modelled from the spec: `AcarsHubDatabase::insert_message`, whose body is
outside the verified sources.  Spec §4.3: the three steps form one
transactionally scoped unit of work — `fails` stands for a storage failure
anywhere inside the unit, in which case nothing is recorded (the failure is
logged and the message discarded); otherwise all three steps apply. -/
def insert_message (fails : Bool) (db : DbState) (m : NewMessage) : DbState :=
  if fails then db else applyDerived m (applyTotals m (applyInsertRow m db))

/-- One iteration of the persistence consumer's receive loop
(`DatabaseListener::start`, `db_listener.rs` lines 41-53): canonicalize the
envelope; when the result is `Some`, take the fair lock and insert; when it
is `None`, nothing touches the database. -/
def consumerStep (fmtF64 : ℚ → String) (fails : Bool) (db : DbState)
    (msg : AcarsVdlm2Message) : DbState :=
  match (to_message fmtF64 msg).1 with
  | some m => insert_message fails db m
  | none => db

/-- C1: per accepted envelope the unit of work is all-or-nothing: either the
storage failure leaves the state exactly as it was, or the base row, its
full-text index entry, and every applicable derived update (totals, both
histograms, alert archive and hit counters) are all recorded — and in that
case the running total is bumped exactly once. -/
theorem unit_of_work_atomic (fmtF64 : ℚ → String) (fails : Bool)
    (db : DbState) (msg : AcarsVdlm2Message) (m : NewMessage)
    (h : (to_message fmtF64 msg).1 = some m) :
    consumerStep fmtF64 fails db msg = db ∨
      ((consumerStep fmtF64 fails db msg).messages
          = db.messages ++ [(db.messages.length + 1, m)] ∧
        (consumerStep fmtF64 fails db msg).fts
          = db.fts ++ [(db.messages.length + 1, ftsEntryOf m)] ∧
        (consumerStep fmtF64 fails db msg).count.total = db.count.total + 1 ∧
        (consumerStep fmtF64 fails db msg).freqs
          = bumpCount db.freqs (m.freq, m.message_type) ∧
        (consumerStep fmtF64 fails db msg).levels = bumpCount db.levels m.level ∧
        (consumerStep fmtF64 fails db msg).alertStats
          = (alertHits db m).foldl bumpCount db.alertStats ∧
        (consumerStep fmtF64 fails db msg).saved
          = db.saved ++ (alertHits db m).map fun t =>
              { message := m, term := t, type_of_match := "text" }) := by
  unfold consumerStep
  rw [h]
  unfold insert_message
  cases fails with
  | true => exact Or.inl rfl
  | false =>
      refine Or.inr ⟨rfl, rfl, rfl, rfl, rfl, ?_, ?_⟩ <;>
        simp [applyDerived, applyTotals, applyInsertRow, alertHits]

/-- Witness for C1 at a concrete input: inserting the canonicalized sample
ACARS message into an empty database bumps the running total to 1. -/
theorem unit_of_work_atomic_witness :
    consumerStep (fun _ => "") false
        { messages := [], fts := [], count := ⟨0, 0, 0⟩, freqs := [],
          levels := [], alertTerms := [], alertStats := [], ignoreTerms := [],
          saved := [] }
        (.acarsMessage sampleAcars) ≠
      { messages := [], fts := [], count := ⟨0, 0, 0⟩, freqs := [],
        levels := [], alertTerms := [], alertStats := [], ignoreTerms := [],
        saved := [] } := by
  have h := unit_of_work_atomic (fun _ => "") false
    { messages := [], fts := [], count := ⟨0, 0, 0⟩, freqs := [], levels := [],
      alertTerms := [], alertStats := [], ignoreTerms := [], saved := [] }
    (.acarsMessage sampleAcars) (acars_message (fun _ => "") sampleAcars) rfl
  rcases h with h | h
  · intro _
    have := congrArg (fun s => s.count.total) h
    simp [consumerStep, to_message, insert_message, applyDerived, applyTotals,
      applyInsertRow] at this
  · intro heq
    have := h.2.2.1
    rw [heq] at this
    simp at this

/-- C3: every protocol variant without an implemented mapping (VDL-M2, HFDL,
Iridium, Inmarsat L-Band) canonicalizes to `None` with exactly one logged
warning, and the consumer leaves the database — rows, totals and histograms —
untouched. -/
theorem unsupported_variants_dropped (fmtF64 : ℚ → String) (fails : Bool)
    (db : DbState) :
    (∀ p, (to_message fmtF64 (.vdlm2Message p)).1 = none ∧
      (to_message fmtF64 (.vdlm2Message p)).2 = ["Vdlm2Message not yet implemented"] ∧
      consumerStep fmtF64 fails db (.vdlm2Message p) = db) ∧
    (∀ p, (to_message fmtF64 (.hfdlMessage p)).1 = none ∧
      (to_message fmtF64 (.hfdlMessage p)).2 = ["HfdlMessage not yet implemented"] ∧
      consumerStep fmtF64 fails db (.hfdlMessage p) = db) ∧
    (∀ p, (to_message fmtF64 (.irdmMessage p)).1 = none ∧
      (to_message fmtF64 (.irdmMessage p)).2 = ["IrdmMessage not yet implemented"] ∧
      consumerStep fmtF64 fails db (.irdmMessage p) = db) ∧
    (∀ p, (to_message fmtF64 (.imslMessage p)).1 = none ∧
      (to_message fmtF64 (.imslMessage p)).2 = ["ImslMessage not yet implemented"] ∧
      consumerStep fmtF64 fails db (.imslMessage p) = db) :=
  ⟨fun _ => ⟨rfl, rfl, rfl⟩, fun _ => ⟨rfl, rfl, rfl⟩,
   fun _ => ⟨rfl, rfl, rfl⟩, fun _ => ⟨rfl, rfl, rfl⟩⟩

/-! ## Byte-to-text interpretation (`String::from_utf8_lossy`)

`start_udp_listener` interprets each received datagram with
`String::from_utf8_lossy(&buf[..len])`.  The decoder below transcribes the
UTF-8 validation table of the Rust standard library together with its
"substitution of maximal subparts" replacement policy: each maximal invalid
subpart becomes one U+FFFD. -/

/-- The Unicode replacement character U+FFFD. -/
def replacementChar : Char := Char.ofNat 0xFFFD

/-- Whether a byte is a UTF-8 continuation byte (`0x80..=0xBF`). -/
def isCont (b : Nat) : Bool := 0x80 ≤ b && b ≤ 0xBF

/-- Result of examining the head of a byte stream: end of input, a scalar
decoded from the first `k` bytes, or an invalid maximal subpart of `k` bytes
(one replacement character in lossy decoding). -/
inductive Utf8Step
  | done
  | ok (c : Char) (k : Nat)
  | bad (k : Nat)
deriving DecidableEq

/-- One step of UTF-8 validation over the leading bytes, mirroring the
byte-range table of `core::str::validations::run_utf8_validation` (first-byte
classes, the special second-byte ranges of `0xE0`/`0xED`/`0xF0`/`0xF4`, and
the error lengths used for maximal-subpart replacement; a sequence truncated
by the end of input is an invalid subpart covering the remaining bytes). -/
def utf8Step : List Nat → Utf8Step
  | [] => .done
  | b :: rest =>
    if b < 0x80 then .ok (Char.ofNat b) 1
    else if b < 0xC2 then .bad 1
    else if b ≤ 0xDF then
      match rest with
      | [] => .bad 1
      | c1 :: _ =>
        if isCont c1 then .ok (Char.ofNat ((b - 0xC0) * 0x40 + (c1 - 0x80))) 2
        else .bad 1
    else if b ≤ 0xEF then
      match rest with
      | [] => .bad 1
      | c1 :: rest2 =>
        if (if b = 0xE0 then 0xA0 else 0x80) ≤ c1 &&
            c1 ≤ (if b = 0xED then 0x9F else 0xBF) then
          match rest2 with
          | [] => .bad 2
          | c2 :: _ =>
            if isCont c2 then
              .ok (Char.ofNat ((b - 0xE0) * 0x1000 + (c1 - 0x80) * 0x40 + (c2 - 0x80))) 3
            else .bad 2
        else .bad 1
    else if b ≤ 0xF4 then
      match rest with
      | [] => .bad 1
      | c1 :: rest2 =>
        if (if b = 0xF0 then 0x90 else 0x80) ≤ c1 &&
            c1 ≤ (if b = 0xF4 then 0x8F else 0xBF) then
          match rest2 with
          | [] => .bad 2
          | c2 :: rest3 =>
            if isCont c2 then
              match rest3 with
              | [] => .bad 3
              | c3 :: _ =>
                if isCont c3 then
                  .ok (Char.ofNat ((b - 0xF0) * 0x40000 + (c1 - 0x80) * 0x1000 +
                    (c2 - 0x80) * 0x40 + (c3 - 0x80))) 4
                else .bad 3
            else .bad 2
        else .bad 1
    else .bad 1

theorem utf8Step_nil : utf8Step [] = .done := rfl

theorem utf8Step_ok_pos {bs : List Nat} {c : Char} {k : Nat}
    (h : utf8Step bs = .ok c k) : 0 < k ∧ bs ≠ [] := by
  cases bs with
  | nil => simp [utf8Step] at h
  | cons b rest =>
      refine ⟨?_, by simp⟩
      simp only [utf8Step] at h
      repeat' split at h
      all_goals first
        | (cases h; omega)
        | exact absurd h (by simp)

theorem utf8Step_bad_pos {bs : List Nat} {k : Nat}
    (h : utf8Step bs = .bad k) : 0 < k ∧ bs ≠ [] := by
  cases bs with
  | nil => simp [utf8Step] at h
  | cons b rest =>
      refine ⟨?_, by simp⟩
      simp only [utf8Step] at h
      repeat' split at h
      all_goals first
        | (cases h; omega)
        | exact absurd h (by simp)

/-- The character list produced by lossy UTF-8 decoding: scalars for valid
sequences, one U+FFFD per maximal invalid subpart. -/
def utf8LossyChars (bs : List Nat) : List Char :=
  match h : utf8Step bs with
  | .done => []
  | .ok c k => c :: utf8LossyChars (bs.drop k)
  | .bad k => replacementChar :: utf8LossyChars (bs.drop k)
termination_by bs.length
decreasing_by
  · have hk := utf8Step_ok_pos h
    have : bs.length ≠ 0 := by
      intro h0
      rw [List.length_eq_zero] at h0
      exact hk.2 h0
    simp only [List.length_drop]
    omega
  · have hk := utf8Step_bad_pos h
    have : bs.length ≠ 0 := by
      intro h0
      rw [List.length_eq_zero] at h0
      exact hk.2 h0
    simp only [List.length_drop]
    omega

/-- Whether a byte list is valid UTF-8 (every step decodes, none errors). -/
def validUtf8 (bs : List Nat) : Bool :=
  match h : utf8Step bs with
  | .done => true
  | .ok _ k => validUtf8 (bs.drop k)
  | .bad _ => false
termination_by bs.length
decreasing_by
  · have hk := utf8Step_ok_pos h
    have : bs.length ≠ 0 := by
      intro h0
      rw [List.length_eq_zero] at h0
      exact hk.2 h0
    simp only [List.length_drop]
    omega

theorem utf8LossyChars_of_done {bs : List Nat} (h : utf8Step bs = .done) :
    utf8LossyChars bs = [] := by
  rw [utf8LossyChars]
  split <;> simp_all

theorem utf8LossyChars_of_ok {bs : List Nat} {c : Char} {k : Nat}
    (h : utf8Step bs = .ok c k) :
    utf8LossyChars bs = c :: utf8LossyChars (bs.drop k) := by
  rw [utf8LossyChars]
  split <;> simp_all

theorem utf8LossyChars_of_bad {bs : List Nat} {k : Nat}
    (h : utf8Step bs = .bad k) :
    utf8LossyChars bs = replacementChar :: utf8LossyChars (bs.drop k) := by
  rw [utf8LossyChars]
  split <;> simp_all

theorem validUtf8_of_done {bs : List Nat} (h : utf8Step bs = .done) :
    validUtf8 bs = true := by
  rw [validUtf8]
  split <;> simp_all

theorem validUtf8_of_ok {bs : List Nat} {c : Char} {k : Nat}
    (h : utf8Step bs = .ok c k) : validUtf8 bs = validUtf8 (bs.drop k) := by
  rw [validUtf8]
  split <;> simp_all

theorem validUtf8_of_bad {bs : List Nat} {k : Nat}
    (h : utf8Step bs = .bad k) : validUtf8 bs = false := by
  rw [validUtf8]
  split <;> simp_all

/-- An invalid byte list always surfaces at least one replacement character
in its lossy decoding. -/
theorem replacement_of_invalid :
    ∀ (bs : List Nat), validUtf8 bs = false → replacementChar ∈ utf8LossyChars bs := by
  have main : ∀ (n : Nat) (bs : List Nat), bs.length ≤ n → validUtf8 bs = false →
      replacementChar ∈ utf8LossyChars bs := by
    intro n
    induction n with
    | zero =>
        intro bs hlen hv
        have hbs : bs = [] := by
          rw [← List.length_eq_zero]
          omega
        rw [hbs, validUtf8_of_done utf8Step_nil] at hv
        cases hv
    | succ n ih =>
        intro bs hlen hv
        cases hstep : utf8Step bs with
        | done => rw [validUtf8_of_done hstep] at hv; cases hv
        | ok c k =>
            rw [validUtf8_of_ok hstep] at hv
            rw [utf8LossyChars_of_ok hstep]
            have hk := utf8Step_ok_pos hstep
            have hlt : (bs.drop k).length ≤ n := by
              simp only [List.length_drop]
              omega
            exact List.mem_cons_of_mem _ (ih _ hlt hv)
        | bad k =>
            rw [utf8LossyChars_of_bad hstep]
            exact List.mem_cons_self _ _
  intro bs hv
  exact main bs.length bs le_rfl hv

/-- `String::from_utf8_lossy` on a byte slice. -/
def from_utf8_lossy (bs : List Nat) : String := ⟨utf8LossyChars bs⟩

/-! ## Protocol listener (`acarshub-message-processing/src/lib.rs`) -/

/-- `recv_from(&mut buf)` with `let mut buf = [0; 8192]`: the kernel writes
at most 8192 bytes of the datagram into the buffer, so the payload seen by
the loop is the datagram truncated to the buffer size. -/
def recvBuffer (payload : List Nat) : List Nat := payload.take 8192

/-- Per-datagram outcome of the receive loop body: the decoded message was
forwarded to the ingestion channel, or the decode failure was logged and the
datagram dropped. -/
inductive DatagramOutcome (M : Type)
  | sent (m : M)
  | decodeFailureLogged (e : String)
deriving DecidableEq

/-- The body of one receive-loop iteration (`start_udp_listener`, lines
107-123): interpret the buffered bytes as text with `from_utf8_lossy`, hand
the text to the external decoder (`decode_message`, a black box modelled as a
function parameter), forward a decoded message, and log-and-drop on a decode
error. -/
def handleDatagram {M : Type} (decode : String → Except String M)
    (payload : List Nat) : DatagramOutcome M :=
  match decode (from_utf8_lossy (recvBuffer payload)) with
  | .ok m => .sent m
  | .error e => .decodeFailureLogged e

/-- C10: the listener's byte-to-text interpretation is total — the payload is
truncated to at most 8192 bytes, invalid UTF-8 surfaces as the replacement
character rather than a failure, and the per-datagram processing always
yields an outcome whose only failure path is the decoder returning an
error. -/
theorem byte_interpretation_total {M : Type} (decode : String → Except String M)
    (payload : List Nat) :
    (recvBuffer payload).length ≤ 8192 ∧
    (validUtf8 (recvBuffer payload) = false →
      replacementChar ∈ (from_utf8_lossy (recvBuffer payload)).data) ∧
    (∀ m, handleDatagram decode payload = .sent m ↔
      decode (from_utf8_lossy (recvBuffer payload)) = .ok m) ∧
    (∀ e, handleDatagram decode payload = .decodeFailureLogged e ↔
      decode (from_utf8_lossy (recvBuffer payload)) = .error e) := by
  refine ⟨?_, ?_, ?_, ?_⟩
  · simp [recvBuffer]
  · intro hv
    exact replacement_of_invalid _ hv
  · intro m
    unfold handleDatagram
    cases hd : decode (from_utf8_lossy (recvBuffer payload)) <;> simp
  · intro e
    unfold handleDatagram
    cases hd : decode (from_utf8_lossy (recvBuffer payload)) <;> simp

/-- Witness for C10 at a concrete input: the single invalid byte 0xFF is
interpreted as the replacement character, and with a decoder that accepts
everything the datagram is forwarded rather than failing. -/
theorem byte_interpretation_total_witness :
    replacementChar ∈ (from_utf8_lossy (recvBuffer [0xFF])).data ∧
    handleDatagram (fun s => Except.ok s) [0xFF] =
      .sent (from_utf8_lossy (recvBuffer [0xFF])) := by
  have h := byte_interpretation_total (fun s => Except.ok s) [0xFF]
  refine ⟨h.2.1 ?_, (h.2.2.1 _).mpr rfl⟩
  exact validUtf8_of_bad (show utf8Step (recvBuffer [0xFF]) = .bad 1 from rfl)

/-- One observable event on a listener's UDP socket: a received datagram, or
a receive failure reported by `recv_from`. -/
inductive SocketEvent
  | datagram (payload : List Nat)
  | recvFailure (e : String)

/-- The receive loop of `start_udp_listener` (lines 106-130) over a trace of
socket events: a decoded datagram is forwarded to the channel; a decode
failure is logged and the loop continues; a receive failure is logged and the
loop breaks, so the remaining events are never processed.  Returns the
forwarded messages and the logged errors, each in order. -/
def runListenerLoop {M : Type} (decode : String → Except String M) :
    List SocketEvent → List M × List String
  | [] => ([], [])
  | .datagram p :: rest =>
      match handleDatagram decode p with
      | .sent m =>
          (m :: (runListenerLoop decode rest).1, (runListenerLoop decode rest).2)
      | .decodeFailureLogged e =>
          ((runListenerLoop decode rest).1,
            ("Failed to decode message: " ++ e) :: (runListenerLoop decode rest).2)
  | .recvFailure e :: _ => ([], ["Failed to receive data: " ++ e])

/-- One listener task's environment: its protocol, whether the socket bind
failed, and the trace of socket events after a successful bind. -/
structure ListenerCfg where
  feature : Protocols
  bindFailure : Option String
  events : List SocketEvent

/-- `start_udp_listener` (lines 89-132) as a whole: a bind failure is logged
and returns before the loop starts; otherwise the receive loop runs over the
socket's events. -/
def startUdpListenerRun {M : Type} (decode : String → Except String M)
    (cfg : ListenerCfg) : List M × List String :=
  match cfg.bindFailure with
  | some e =>
      ([], ["Failed to bind UDP " ++ cfg.feature.display ++ " socket: " ++ e])
  | none => runListenerLoop decode cfg.events

/-- `AcarsHubMessageProcessing::run_listener`: one independent listener task
per enabled protocol; each task's outcome is a function of its own socket
only. -/
def runSystem {M : Type} (decode : String → Except String M)
    (cfgs : List ListenerCfg) : List (List M × List String) :=
  cfgs.map (startUdpListenerRun decode)

/-- C7: in every loop iteration, a datagram decode failure is logged and the
loop continues — the forwarded messages are exactly those of the remaining
events, so the failed datagram is dropped and never retried; a receive
failure is logged and terminates the loop with no further event processed; a
bind failure is logged and prevents the loop entirely; and each listener's
outcome is independent of every other listener's events. -/
theorem listener_failure_policy {M : Type} (decode : String → Except String M)
    (p : List Nat) (e : String) (rest : List SocketEvent)
    (hdec : handleDatagram decode p = .decodeFailureLogged e) :
    runListenerLoop decode (.datagram p :: rest)
      = ((runListenerLoop decode rest).1,
          ("Failed to decode message: " ++ e) :: (runListenerLoop decode rest).2) ∧
    (∀ (e2 : String) (rest2 : List SocketEvent),
      runListenerLoop decode (.recvFailure e2 :: rest2)
        = ([], ["Failed to receive data: " ++ e2])) ∧
    (∀ (f : Protocols) (eb : String) (evs : List SocketEvent),
      startUdpListenerRun decode { feature := f, bindFailure := some eb, events := evs }
        = ([], ["Failed to bind UDP " ++ f.display ++ " socket: " ++ eb])) ∧
    (∀ (pre post : List ListenerCfg) (c : ListenerCfg),
      runSystem decode (pre ++ c :: post)
        = runSystem decode pre ++ startUdpListenerRun decode c :: runSystem decode post) := by
  refine ⟨?_, fun e2 rest2 => rfl, fun f eb evs => rfl, fun pre post c => ?_⟩
  · simp only [runListenerLoop, hdec]
  · simp [runSystem]

/-- Witness for C7 at concrete inputs: with a decoder rejecting everything,
one bad datagram followed by one more is logged and the loop continues to the
next event. -/
theorem listener_failure_policy_witness :
    runListenerLoop (fun _ => (Except.error "boom" : Except String String)) [.datagram [65]]
      = ([], ["Failed to decode message: boom"]) ∧
    runListenerLoop (fun _ => (Except.error "boom" : Except String String))
        [.recvFailure "closed", .datagram [65]]
      = ([], ["Failed to receive data: closed"]) := by
  have h := listener_failure_policy
    (fun _ => (Except.error "boom" : Except String String)) [65] "boom" [] rfl
  exact ⟨h.1, h.2.1 "closed" [.datagram [65]]⟩

/-! ## Process-level concurrency structure (`acarshub/src/main.rs`) -/

/-- The concurrent tasks of the process: one listener task per enabled
protocol, the single persistence-consumer task spawned by
`DatabaseListener::start`, and the web server task (which holds a clone of
the `Arc` to the database handle but never locks it). -/
inductive TaskId
  | listener (p : Protocols)
  | dbConsumer
  | webserver
deriving DecidableEq

/-- The database handle is wrapped in `parking_lot::FairMutex` (both in
`main.rs` and in `db_listener.rs`), whose contract services contending
acquirers in arrival order; the choice of the fair lock type is transcribed
as this fact of the embedding. -/
def dbLockIsFair : Bool := true

/-- A record of one storage mutation: the task that performed it and the
holder of the fair lock at that moment. -/
structure MutationRecord where
  task : TaskId
  lockHolderAtMutation : Option TaskId
deriving DecidableEq

/-- Process state: the ingestion channel contents, the fair-lock holder, the
database state, and the history of storage mutations performed so far. -/
structure SysState where
  chan : List AcarsVdlm2Message
  lockHolder : Option TaskId
  db : DbState
  mutations : List MutationRecord

/-- The interleaving semantics of the process, transcribed from the sources:
listener tasks only push onto the unbounded channel (`sender.send`); only the
consumer task spawned in `DatabaseListener::start` acquires `database.lock()`
and mutates the database; the web server task serves HTTP and performs no
database operation; the lock is exclusive (held by at most one task). -/
inductive SysStep (fmtF64 : ℚ → String) : SysState → SysState → Prop
  | listenerSend (p : Protocols) (msg : AcarsVdlm2Message) (s : SysState) :
      SysStep fmtF64 s { s with chan := s.chan ++ [msg] }
  | consumerAcquire (s : SysState) :
      s.lockHolder = none →
      SysStep fmtF64 s { s with lockHolder := some .dbConsumer }
  | consumerInsert (s : SysState) (msg : AcarsVdlm2Message)
      (restChan : List AcarsVdlm2Message) (fails : Bool) :
      s.lockHolder = some .dbConsumer →
      s.chan = msg :: restChan →
      SysStep fmtF64 s
        { s with
          chan := restChan
          db := consumerStep fmtF64 fails s.db msg
          mutations := s.mutations ++
            [{ task := .dbConsumer, lockHolderAtMutation := s.lockHolder }] }
  | consumerRelease (s : SysState) :
      s.lockHolder = some .dbConsumer →
      SysStep fmtF64 s { s with lockHolder := none }
  | webserverServe (s : SysState) :
      SysStep fmtF64 s s

/-- The state at process start: empty channel, lock free, no mutation yet. -/
def initState (db0 : DbState) : SysState :=
  { chan := [], lockHolder := none, db := db0, mutations := [] }

/-- C6: in every state the process can reach, the fair lock has only ever
been taken by the persistence-consumer task, and every storage mutation in
the process's history was performed by the consumer task while it held the
fairness-respecting exclusive lock — no other component locks or mutates the
handle. -/
theorem storage_mutations_serialized (fmtF64 : ℚ → String) (db0 : DbState)
    (s : SysState)
    (h : Relation.ReflTransGen (SysStep fmtF64) (initState db0) s) :
    dbLockIsFair = true ∧
    (s.lockHolder = none ∨ s.lockHolder = some .dbConsumer) ∧
    (∀ r ∈ s.mutations,
      r.task = .dbConsumer ∧ r.lockHolderAtMutation = some .dbConsumer) := by
  induction h with
  | refl => exact ⟨rfl, Or.inl rfl, by simp [initState]⟩
  | tail hsteps hstep ih =>
      obtain ⟨-, ihlock, ihmut⟩ := ih
      cases hstep with
      | listenerSend p msg s1 => exact ⟨rfl, ihlock, ihmut⟩
      | consumerAcquire s1 hfree => exact ⟨rfl, Or.inr rfl, ihmut⟩
      | consumerInsert s1 msg restChan fails hlock hchan =>
          refine ⟨rfl, by simp [hlock], ?_⟩
          intro r hr
          simp only [List.mem_append, List.mem_singleton] at hr
          rcases hr with hr | hr
          · exact ihmut r hr
          · subst hr
            exact ⟨rfl, hlock⟩
      | consumerRelease s1 hlock => exact ⟨rfl, Or.inl rfl, ihmut⟩
      | webserverServe s1 => exact ⟨rfl, ihlock, ihmut⟩

/-- The empty database state, used to instantiate theorems. -/
def emptyDb : DbState :=
  { messages := [], fts := [], count := ⟨0, 0, 0⟩, freqs := [], levels := [],
    alertTerms := [], alertStats := [], ignoreTerms := [], saved := [] }

/-- Witness for C6 at a concrete reachable state: after the consumer takes
the lock, the lock holder is still no task other than the consumer. -/
theorem storage_mutations_serialized_witness :
    dbLockIsFair = true ∧
    ({ initState emptyDb with lockHolder := some .dbConsumer } : SysState).lockHolder = none ∨
    ({ initState emptyDb with lockHolder := some .dbConsumer } : SysState).lockHolder
      = some .dbConsumer := by
  have h := storage_mutations_serialized (fun _ => "") emptyDb
    { initState emptyDb with lockHolder := some .dbConsumer }
    (Relation.ReflTransGen.single (SysStep.consumerAcquire (initState emptyDb) rfl))
  rcases h.2.1 with hl | hl
  · exact Or.inl ⟨h.1, hl⟩
  · exact Or.inr hl

end AcarsHub
